import Mathlib

/-!
Shallow embedding of `image_annotator.py` (Tag The Habit), the single-file
image annotation tool, together with proofs about its display-scaling
policy, its annotation store, and its session state machine.

Conventions of the embedding:
* Python integers are `Nat`/`Int`; pixel dimensions are `Nat`.
* Python float arithmetic in the scaling code (`scale = size / m`,
  `int(w * scale)`, and Pillow's `thumbnail` aspect bookkeeping) is modelled
  with exact rational arithmetic, cleared of denominators into `Nat`
  inequalities; `int(...)` on a positive value is the floor.
* The Python `dict` `self.annotations` is an insertion-ordered association
  list with unique keys; `d[k] = v` updates in place or appends.
* The CSV layer is modelled at field level: a data row is the triple
  `(filename, class_index, class_name)` with the integer field held as an
  `Int` (Python `str`/`int` round-trip on integers is exact), and the header
  row is a separate list of field-name strings.
-/

namespace TagTheHabit

/-! ## Image scaling policy (`display_image`, source lines 262-320) -/

/-- Recognized image file extensions (`load_images`, source line 238). -/
def extensions : List String := [".png", ".jpg", ".jpeg", ".bmp", ".gif", ".tiff"]

/-- Python `str.lower()` over the code points of the string (the extension
characters it must act on are ASCII). -/
def strLower (s : String) : String := ⟨s.data.map Char.toLower⟩

/-- Python `str.endswith(e)`: the code-point sequence of `e` is a suffix of
that of `s`. -/
def strEndsWith (s e : String) : Bool := e.data.isSuffixOf s.data

/-- A directory entry is an image file when its lowercased name ends with one
of the recognized extensions, as in `f.lower().endswith(extensions)` in the
comprehension of `load_images`. -/
def isImageFile (f : String) : Bool :=
  extensions.any (fun e => strEndsWith (strLower f) e)

/-- The shorter-side choice Pillow's `Image.thumbnail` makes when the longer
side is the height (`x = round_aspect(y * aspect, key=lambda n: abs(aspect - n / y))`):
between the floor `f` and the ceiling of the exact value `bound*w/h`, it takes
the one closer to the exact value (floor on ties), then clamps to at least 1.
With `r = bound*w mod h`, "closer to floor" is `2*r ≤ h`. -/
def roundAspectX (bound w h : Nat) : Nat :=
  let f := bound * w / h
  let r := bound * w % h
  let choice := if r = 0 then f else if 2 * r ≤ h then f else f + 1
  max choice 1

/-- The shorter-side choice Pillow's `Image.thumbnail` makes when the longer
side is the width (`y = round_aspect(x / aspect, key=lambda n: 0 if n == 0 else abs(aspect - x / n))`):
between the floor `f` and the ceiling `f+1` of the exact value `bound*h/w`, it
takes the one whose reciprocal aspect error is smaller; the key at `n = 0` is 0,
and the result is clamped to at least 1.  Clearing denominators, floor wins
exactly when `h*bound*(f + (f+1)) ≤ 2*w*f*(f+1)`. -/
def roundAspectY (bound w h : Nat) : Nat :=
  let f := bound * h / w
  let r := bound * h % w
  let choice :=
    if r = 0 then f
    else if f = 0 then 1
    else if h * bound * (f + (f + 1)) ≤ 2 * w * f * (f + 1) then f else f + 1
  max choice 1

/-- Pixel dimensions after `img.thumbnail((bound, bound), NEAREST)` (Pillow):
no-op when the image already fits in the `bound × bound` box, otherwise the
longer side becomes `bound` and the shorter side is rounded to best preserve
the aspect ratio.  The branch test `x / y >= aspect` with `x = y = bound`
is `1 ≥ w/h`, i.e. `h ≥ w`. -/
def thumbnailSize (w h bound : Nat) : Nat × Nat :=
  if bound ≥ w ∧ bound ≥ h then (w, h)
  else if h ≥ w then (roundAspectX bound w h, bound)
  else (bound, roundAspectY bound w h)

/-- Dimensions of the resized preview pane, source lines 288-301: with
`m = max w h`, upscale both axes by `bound/m` (each axis floored from the
same factor: `int(size * scale)`) when `m < bound`, call `thumbnail` when
`m > bound`, and keep the image as is when `m = bound`. -/
def previewSize (w h bound : Nat) : Nat × Nat :=
  let m := max w h
  if m < bound then (w * bound / m, h * bound / m)
  else if m > bound then thumbnailSize w h bound
  else (w, h)

/-- What `display_image` shows, as far as sizes are concerned. -/
structure DisplayInfo where
  /-- The original pane renders the bitmap at native resolution. -/
  show_original : Bool
  /-- Dimensions reported by the "Image too large" placeholder text, when shown. -/
  placeholder : Option (Nat × Nat)
  /-- Dimensions of the resized preview pane. -/
  resized : Nat × Nat
  deriving DecidableEq, Repr

/-- The size decisions of `display_image` (source lines 271-304) for an image
of original dimensions `w × h`.  The method reads both configured sizes from
the object, but the original-pane test at line 276 compares
`max_original_side` against `self.resized_image_size`; the
`max_display_size` field (configuration key `max_original_display_size`)
is never consulted. -/
def display_image_view (w h resized_image_size max_display_size : Nat) : DisplayInfo :=
  if max w h ≤ resized_image_size then
    { show_original := true, placeholder := none,
      resized := previewSize w h resized_image_size }
  else
    { show_original := false, placeholder := some (w, h),
      resized := previewSize w h resized_image_size }

/-! ## Annotation store (`load_previous_annotations` lines 251-260,
`save_annotations` lines 354-364) -/

/-- One data row of the store CSV, at field level: filename, class index
(the integer field, held parsed: Python `str`/`int` round-trips integers
exactly), class name. -/
abbrev StoreRow := String × Int × String

/-- The header row `writer.writerow(['filename', 'class_index', 'class_name'])`. -/
def headerRow : List String := ["filename", "class_index", "class_name"]

/-- The order `sorted(self.annotations.items())` sorts by: lexicographic on
the `(filename, class_index)` pair, filenames compared as Python compares
strings (by code point). -/
def itemLe (p q : String × Int) : Prop :=
  p.1 < q.1 ∨ (p.1 = q.1 ∧ p.2 ≤ q.2)

instance : DecidableRel itemLe := fun p q =>
  inferInstanceAs (Decidable (p.1 < q.1 ∨ (p.1 = q.1 ∧ p.2 ≤ q.2)))

instance : IsTotal (String × Int) itemLe where
  total p q := by
    rcases lt_trichotomy p.1 q.1 with h | h | h
    · exact Or.inl (Or.inl h)
    · rcases le_total p.2 q.2 with h2 | h2
      · exact Or.inl (Or.inr ⟨h, h2⟩)
      · exact Or.inr (Or.inr ⟨h.symm, h2⟩)
    · exact Or.inr (Or.inl h)

instance : IsTrans (String × Int) itemLe where
  trans a b c hab hbc := by
    rcases hab with h1 | ⟨e1, l1⟩ <;> rcases hbc with h2 | ⟨e2, l2⟩
    · exact Or.inl (lt_trans h1 h2)
    · exact Or.inl (e2 ▸ h1)
    · exact Or.inl (e1 ▸ h2)
    · exact Or.inr ⟨e1.trans e2, le_trans l1 l2⟩

/-- Embedding of `sorted(self.annotations.items())`: the stable ascending rearrangement
under `itemLe`. -/
def sortedItems (l : List (String × Int)) : List (String × Int) :=
  l.insertionSort itemLe

/-- Python list subscription `classes[i]` for an `int` index: a negative
index counts from the end; an index out of range on either side raises
`IndexError` (`none`). -/
def pyGet (l : List String) (i : Int) : Option String :=
  let j : Int := if i < 0 then i + l.length else i
  if 0 ≤ j ∧ j < l.length then l[j.toNat]? else none

/-- The row-writing loop of `save_annotations` (source lines 363-364): the
data rows actually written, in order, paired with whether the loop ran to
completion (`false` when `self.classes[class_idx]` raised `IndexError`, in
which case the loop stops with the earlier rows already in the truncated
file). -/
def writeRows (classes : List String) : List (String × Int) → List StoreRow × Bool
  | [] => ([], true)
  | (k, v) :: rest =>
    match pyGet classes v with
    | none => ([], false)
    | some nm =>
      let out := writeRows classes rest
      ((k, v, nm) :: out.1, out.2)

/-- Outcome of one run of `save_annotations`: the file is opened with mode
`w` (truncating), the header goes out first, then the data rows; `ok` records
whether the write loop finished without an exception. -/
structure SaveResult where
  header : List String
  rows : List StoreRow
  ok : Bool
  deriving DecidableEq, Repr

/-- Embedding of `save_annotations` (source lines 354-364) as a function of the class list
and the annotation dict: write the header, then one row per entry of
`sorted(self.annotations.items())`, resolving `class_name` through
`self.classes[class_idx]` at write time. -/
def save_annotations (classes : List String) (annots : List (String × Int)) :
    SaveResult :=
  let out := writeRows classes (sortedItems annots)
  { header := headerRow, rows := out.1, ok := out.2 }

/-- Python dict assignment `d[k] = v` on an insertion-ordered association
list with unique keys: overwrite in place, or append a new key. -/
def dictInsert : List (String × Int) → String → Int → List (String × Int)
  | [], k, v => [(k, v)]
  | (k', v') :: rest, k, v =>
    if k' = k then (k, v) :: rest else (k', v') :: dictInsert rest k v

/-- Embedding of `load_previous_annotations` (source lines 251-260) as a function of the
store file contents: a missing file (`none`) leaves the dict empty; otherwise
each data row is inserted in order via
`self.annotations[row[filename]] = int(row[class_index])`, so a later row
with the same filename overwrites an earlier one. -/
def load_previous_annotations (file : Option (List StoreRow)) :
    List (String × Int) :=
  match file with
  | none => []
  | some rows => rows.foldl (fun m r => dictInsert m r.1 r.2.1) []

/-! ## Configuration loading (`load_config`, source lines 45-114) -/

/-- A JSON value, as far as the configuration reader observes it. -/
inductive JVal where
  | jnull
  | jbool (b : Bool)
  | jnum (n : Int)
  | jstr (s : String)
  | jarr (xs : List JVal)
  | jobj (fields : List (String × JVal))

/-- The exceptions `load_config` raises on an invalid payload, each carrying
the message of the corresponding `raise` (quote characters around field
names elided, newlines flattened). -/
inductive ConfigError where
  | keyError (msg : String)
  | typeError (msg : String)
  | valueError (msg : String)
  deriving Repr

/-- The fields `load_config` stores on the object.  `classes` is kept as the
raw list of JSON values (only `isinstance(..., list)` is checked, not that
the entries are strings), and the remaining three fields are stored with no
type check at all. -/
structure Config where
  classes : List JVal
  annotations_file : JVal
  resized_image_size : JVal
  max_display_size : JVal

/-- Embedding of `load_config` (source lines 72-114) on a parsed configuration payload
(the JSON object, whose keys are unique): validate and store the fields in
the order the source checks them. -/
def load_config (config : List (String × JVal)) : Except ConfigError Config :=
  match List.lookup ("classes") config with
  | none =>
      .error (.keyError ("The classes field is required in the configuration file."))
  | some cv =>
    match cv with
    | .jarr classes =>
      if classes.length = 0 then
        .error (.valueError ("The configuration file must contain at least one class."))
      else if 9 < classes.length then
        .error (.valueError ("Number of classes must not exceed 9 (currently "
          ++ toString classes.length ++ ")."))
      else
        match List.lookup ("annotations_file") config with
        | none =>
            .error (.keyError
              ("The annotations_file field is required in the configuration file."))
        | some af =>
          match List.lookup ("resized_image_size") config with
          | none =>
              .error (.keyError
                ("The resized_image_size field is required in the configuration file."))
          | some rs =>
            match List.lookup ("max_original_display_size") config with
            | none =>
                .error (.keyError
                  ("The max_original_display_size field is required in the configuration file."))
            | some ms =>
                .ok { classes := classes, annotations_file := af,
                      resized_image_size := rs, max_display_size := ms }
    | _ =>
        .error (.typeError ("The classes field must be a list of strings."))

/-! ## Session state machine (`ImageAnnotator` methods) -/

/-- The mutable state of the `ImageAnnotator` object: the fields the session
logic reads and writes (widget handles and label texts are not state).
`classes` is immutable after `load_config`. -/
structure AppState where
  classes : List String
  images : List String
  current_index : Nat
  annotations : List (String × Int)
  selected_class : Int
  deriving DecidableEq, Repr

/-- The expression `self.images[self.current_index]`, the image at the cursor (in reachable
states the index is in range whenever the list is non-empty). -/
def currentImage (s : AppState) : String :=
  s.images.getD s.current_index ""

/-- The state effect of `display_image` (source lines 262-323): nothing when
the Image Set is empty; otherwise the radio-button variable is set to the
stored annotation of the current image, or to the sentinel -1 (lines
315-320).  Image decoding is treated as an external capability that
succeeds; label texts and photo handles are not state. -/
def display_image (s : AppState) : AppState :=
  if s.images = [] then s
  else
    { s with selected_class := (List.lookup (currentImage s) s.annotations).getD (-1) }

/-- Embedding of `previous_image` (source lines 366-370): step the cursor back one when
images are loaded and it is positive, then redisplay; otherwise do nothing. -/
def previous_image (s : AppState) : AppState :=
  if s.images ≠ [] ∧ 0 < s.current_index then
    display_image { s with current_index := s.current_index - 1 }
  else s

/-- Embedding of `next_image` (source lines 372-376): step the cursor forward one when
images are loaded and it is below the last position, then redisplay;
otherwise do nothing. -/
def next_image (s : AppState) : AppState :=
  if s.images ≠ [] ∧ s.current_index < s.images.length - 1 then
    display_image { s with current_index := s.current_index + 1 }
  else s

/-- Embedding of `load_images` (source lines 236-249) as a function of the directory
listing: replace the Image Set wholesale by the sorted filtered listing; on
a non-empty result reset the cursor to 0 and display, otherwise pop a
warning box (`true` in the second component) and leave the cursor alone. -/
def load_images (s : AppState) (listing : List String) : AppState × Bool :=
  let imgs := (listing.filter isImageFile).insertionSort (· ≤ ·)
  if imgs ≠ [] then
    (display_image { s with images := imgs, current_index := 0 }, false)
  else
    ({ s with images := imgs }, true)

/-- Embedding of `on_class_selected` (source lines 330-340): when images are loaded and
the radio variable holds a non-negative index, record it for the current
image and save.  The `Bool` is `false` when the triggered save raised
`IndexError`; the dict mutation has happened either way, as in the source,
where the exception propagates after line 334 already ran.  When the guard
fails the call silently does nothing. -/
def on_class_selected (s : AppState) : AppState × Bool :=
  if s.images ≠ [] ∧ 0 ≤ s.selected_class then
    let m := dictInsert s.annotations (currentImage s) s.selected_class
    ({ s with annotations := m }, (save_annotations s.classes m).ok)
  else (s, true)

/-- Embedding of `select_class_by_key` (source lines 325-328): set the radio variable
(unconditionally) and run the selection handler. -/
def select_class_by_key (s : AppState) (class_index : Int) : AppState × Bool :=
  on_class_selected { s with selected_class := class_index }

/-- The state after `__init__` (source lines 26-43): no folder, cursor 0,
annotations loaded from the store file if it exists, sentinel selection. -/
def initState (classes : List String) (file : Option (List StoreRow)) : AppState :=
  { classes := classes, images := [], current_index := 0,
    annotations := load_previous_annotations file, selected_class := -1 }

/-- One user action, as dispatched by the UI bindings (source lines 128-129,
157-160, 176-184, 221-227): pick a folder (yielding some directory listing),
the two arrow keys, a number key, a radio-button click, or Ctrl-S (whose
handler `save_annotations` touches no state). -/
inductive Step : AppState → AppState → Prop where
  | openFolder (s : AppState) (listing : List String) :
      Step s (load_images s listing).1
  | prev (s : AppState) : Step s (previous_image s)
  | next (s : AppState) : Step s (next_image s)
  | key (s : AppState) (class_index : Int) :
      Step s (select_class_by_key s class_index).1
  | radio (s : AppState) : Step s (on_class_selected s).1
  | save (s : AppState) : Step s s

/-- The states the running application can reach. -/
inductive Reachable : AppState → Prop where
  | init (classes : List String) (file : Option (List StoreRow)) :
      Reachable (initState classes file)
  | step {s t : AppState} : Reachable s → Step s t → Reachable t

/-! ## Store lemmas -/

/-- The lookup `pyGet` succeeds exactly on the Python-valid index range `[-len, len)`. -/
theorem pyGet_isSome_iff (l : List String) (i : Int) :
    (pyGet l i).isSome = true ↔ -(l.length : Int) ≤ i ∧ i < (l.length : Int) := by
  unfold pyGet
  dsimp only
  by_cases hneg : i < 0
  · rw [if_pos hneg]
    by_cases hin : 0 ≤ i + (l.length : Int) ∧ i + (l.length : Int) < (l.length : Int)
    · rw [if_pos hin]
      have hlt : (i + (l.length : Int)).toNat < l.length := by omega
      simp only [List.getElem?_eq_getElem hlt, Option.isSome_some]
      constructor
      · intro _; omega
      · intro _; trivial
    · rw [if_neg hin]
      simp only [Option.isSome_none, Bool.false_eq_true, false_iff]
      omega
  · rw [if_neg hneg]
    by_cases hin : 0 ≤ i ∧ i < (l.length : Int)
    · rw [if_pos hin]
      have hlt : i.toNat < l.length := by omega
      simp only [List.getElem?_eq_getElem hlt, Option.isSome_some]
      constructor
      · intro _; omega
      · intro _; trivial
    · rw [if_neg hin]
      simp only [Option.isSome_none, Bool.false_eq_true, false_iff]
      omega

/-- The rows the save loop writes are the longest prefix of the items whose
class index resolves, at pair level. -/
theorem writeRows_rows (classes : List String) (items : List (String × Int)) :
    (writeRows classes items).1.map (fun r => (r.1, r.2.1)) =
      items.takeWhile (fun p => (pyGet classes p.2).isSome) := by
  induction items with
  | nil => rfl
  | cons p rest ih =>
    obtain ⟨k, v⟩ := p
    cases hp : pyGet classes v with
    | none => simp [writeRows, hp, List.takeWhile_cons]
    | some nm => simp [writeRows, hp, List.takeWhile_cons, ih]

/-- The save loop finishes without an `IndexError` exactly when every class
index of the items resolves. -/
theorem writeRows_ok (classes : List String) (items : List (String × Int)) :
    (writeRows classes items).2 =
      items.all (fun p => (pyGet classes p.2).isSome) := by
  induction items with
  | nil => rfl
  | cons p rest ih =>
    obtain ⟨k, v⟩ := p
    cases hp : pyGet classes v with
    | none => simp [writeRows, hp, List.all_cons]
    | some nm => simp [writeRows, hp, List.all_cons, ih]

/-- Every written row carries the class name the current class list resolves
its class index to. -/
theorem writeRows_names (classes : List String) (items : List (String × Int)) :
    ∀ r ∈ (writeRows classes items).1, pyGet classes r.2.1 = some r.2.2 := by
  induction items with
  | nil => intro r hr; cases hr
  | cons p rest ih =>
    obtain ⟨k, v⟩ := p
    cases hp : pyGet classes v with
    | none => simp [writeRows, hp]
    | some nm =>
      intro r hr
      simp only [writeRows, hp] at hr
      rcases List.mem_cons.1 hr with rfl | hr
      · exact hp
      · exact ih r hr

/-- Keys after a dict assignment: the assigned key together with the old
keys. -/
theorem dictInsert_keys_mem (m : List (String × Int)) (k : String) (v : Int)
    (a : String) :
    a ∈ (dictInsert m k v).map Prod.fst ↔ a = k ∨ a ∈ m.map Prod.fst := by
  induction m with
  | nil => simp [dictInsert]
  | cons p rest ih =>
    obtain ⟨k', v'⟩ := p
    by_cases h : k' = k
    · subst h
      simp [dictInsert]
    · simp only [dictInsert, if_neg h, List.map_cons, List.mem_cons, ih]
      tauto

/-- Dict assignment preserves distinctness of the keys. -/
theorem dictInsert_keys_nodup (m : List (String × Int)) (k : String) (v : Int)
    (h : (m.map Prod.fst).Nodup) :
    ((dictInsert m k v).map Prod.fst).Nodup := by
  induction m with
  | nil => simp [dictInsert]
  | cons p rest ih =>
    obtain ⟨k', v'⟩ := p
    simp only [List.map_cons, List.nodup_cons] at h
    by_cases hk : k' = k
    · subst hk
      simpa [dictInsert] using h
    · simp only [dictInsert, if_neg hk, List.map_cons, List.nodup_cons]
      refine ⟨fun hmem => ?_, ih h.2⟩
      rcases (dictInsert_keys_mem rest k v k').1 hmem with rfl | hmem
      · exact hk rfl
      · exact h.1 hmem

/-- Looking a key up after a dict assignment. -/
theorem lookup_dictInsert (m : List (String × Int)) (k f : String) (v : Int) :
    List.lookup f (dictInsert m k v) =
      if k = f then some v else List.lookup f m := by
  induction m with
  | nil =>
    simp only [dictInsert, List.lookup]
    by_cases h : k = f
    · subst h; simp
    · have hbf : (f == k) = false := by simpa using fun e : f = k => h e.symm
      simp [hbf, if_neg h]
  | cons p rest ih =>
    obtain ⟨k', v'⟩ := p
    by_cases hk : k' = k
    · subst hk
      simp only [dictInsert, if_pos rfl, List.lookup]
      by_cases h : k' = f
      · subst h; simp
      · have hbf : (f == k') = false := by simpa using fun e : f = k' => h e.symm
        simp [hbf, if_neg h]
    · simp only [dictInsert, if_neg hk, List.lookup]
      by_cases h : k' = f
      · subst h
        have hkf : ¬ k = k' := fun e => hk e.symm
        simp [if_neg hkf]
      · have hbf : (f == k') = false := by simpa using fun e : f = k' => h e.symm
        simp [hbf, ih]

/-- Assigning a fresh key appends the pair. -/
theorem dictInsert_fresh (m : List (String × Int)) (k : String) (v : Int)
    (h : k ∉ m.map Prod.fst) : dictInsert m k v = m ++ [(k, v)] := by
  induction m with
  | nil => rfl
  | cons p rest ih =>
    obtain ⟨k', v'⟩ := p
    simp only [List.map_cons, List.mem_cons] at h
    push_neg at h
    have hne : ¬ k' = k := fun e => h.1 e.symm
    simp [dictInsert, hne, ih h.2]

/-- Folding dict assignments of rows with pairwise-distinct keys, all fresh
for the accumulator, appends the rows in order. -/
theorem foldl_dictInsert_append (rows : List StoreRow) :
    ∀ m : List (String × Int),
      (m.map Prod.fst ++ rows.map (fun r => r.1)).Nodup →
      rows.foldl (fun acc r => dictInsert acc r.1 r.2.1) m =
        m ++ rows.map (fun r => (r.1, r.2.1)) := by
  induction rows with
  | nil => intro m _; simp
  | cons r rest ih =>
    intro m hnd
    have hsplit := List.nodup_append.1 hnd
    have hfresh : r.1 ∉ m.map Prod.fst := by
      intro hmem
      exact hsplit.2.2 hmem (by simp)
    have hins : dictInsert m r.1 r.2.1 = m ++ [(r.1, r.2.1)] :=
      dictInsert_fresh m r.1 r.2.1 hfresh
    have hnd' : ((m ++ [(r.1, r.2.1)]).map Prod.fst ++
        rest.map (fun x => x.1)).Nodup := by
      simpa [List.append_assoc] using hnd
    calc (r :: rest).foldl (fun acc x => dictInsert acc x.1 x.2.1) m
        = rest.foldl (fun acc x => dictInsert acc x.1 x.2.1) (m ++ [(r.1, r.2.1)]) := by
          rw [List.foldl_cons, hins]
      _ = (m ++ [(r.1, r.2.1)]) ++ rest.map (fun x => (x.1, x.2.1)) := ih _ hnd'
      _ = m ++ (r :: rest).map (fun x => (x.1, x.2.1)) := by simp

/-- Loading rows with pairwise-distinct filenames yields exactly their
`(filename, class_index)` pairs in order. -/
theorem load_some_of_nodup (rows : List StoreRow)
    (h : (rows.map (fun r => r.1)).Nodup) :
    load_previous_annotations (some rows) = rows.map (fun r => (r.1, r.2.1)) := by
  simpa [load_previous_annotations] using
    foldl_dictInsert_append rows [] (by simpa using h)

/-- Sorting returns a permutation. -/
theorem sortedItems_perm (l : List (String × Int)) :
    List.Perm (sortedItems l) l :=
  List.perm_insertionSort itemLe l

/-- Sorting returns an `itemLe`-sorted list. -/
theorem sortedItems_sorted (l : List (String × Int)) :
    (sortedItems l).Pairwise itemLe :=
  List.sorted_insertionSort itemLe l

/-- Sorting an already sorted list changes nothing. -/
theorem sortedItems_idem (l : List (String × Int)) :
    sortedItems (sortedItems l) = sortedItems l :=
  List.Sorted.insertionSort_eq (sortedItems_sorted l)

/-- All keys after folding dict assignments stay distinct. -/
theorem foldl_dictInsert_keys_nodup (rows : List StoreRow) :
    ∀ m : List (String × Int), (m.map Prod.fst).Nodup →
      ((rows.foldl (fun acc r => dictInsert acc r.1 r.2.1) m).map Prod.fst).Nodup := by
  induction rows with
  | nil => intro m hm; simpa using hm
  | cons r rest ih =>
    intro m hm
    rw [List.foldl_cons]
    exact ih _ (dictInsert_keys_nodup m r.1 r.2.1 hm)

/-- Looking up a filename after loading rows into a dict yields the class
index of the last row with that filename, falling back to the prior dict. -/
theorem lookup_foldl_dictInsert (rows : List StoreRow) (m : List (String × Int))
    (f : String) :
    List.lookup f (rows.foldl (fun acc r => dictInsert acc r.1 r.2.1) m) =
      match (rows.filter (fun r => r.1 == f)).getLast? with
      | some r => some r.2.1
      | none => List.lookup f m := by
  induction rows using List.reverseRecOn generalizing m with
  | nil => simp
  | append_singleton l r ih =>
    rw [List.foldl_append]
    simp only [List.foldl_cons, List.foldl_nil]
    rw [lookup_dictInsert, List.filter_append]
    by_cases hb : (r.1 == f) = true
    · have hf : r.1 = f := by simpa using hb
      simp only [List.filter_cons, hb, if_true, List.filter_nil]
      rw [List.getLast?_concat]
      simp [hf]
    · have hf : ¬ r.1 = f := by simpa using hb
      have hbf : (r.1 == f) = false := by simpa using hb
      rw [if_neg hf]
      simp only [List.filter_cons, hbf, Bool.false_eq_true, if_false,
        List.filter_nil, List.append_nil]
      exact ih m

/-- When every class index of the map is in `[0, classCount)`, the save loop
runs to completion. -/
theorem save_ok_of_valid (classes : List String) (M : List (String × Int))
    (hvals : ∀ p ∈ M, 0 ≤ p.2 ∧ p.2 < (classes.length : Int)) :
    (save_annotations classes M).ok = true := by
  simp only [save_annotations]
  rw [writeRows_ok, List.all_eq_true]
  intro p hp
  rcases hvals p ((sortedItems_perm M).subset hp) with ⟨h0, h1⟩
  simpa [pyGet_isSome_iff] using ⟨by omega, h1⟩

/-- When every class index of the map is in `[0, classCount)`, the written
rows are exactly the sorted items. -/
theorem save_rows_of_valid (classes : List String) (M : List (String × Int))
    (hvals : ∀ p ∈ M, 0 ≤ p.2 ∧ p.2 < (classes.length : Int)) :
    (save_annotations classes M).rows.map (fun r => (r.1, r.2.1)) = sortedItems M := by
  simp only [save_annotations]
  rw [writeRows_rows]
  apply List.takeWhile_eq_self_iff.mpr
  intro p hp
  rcases hvals p ((sortedItems_perm M).subset hp) with ⟨h0, h1⟩
  simpa [pyGet_isSome_iff] using ⟨by omega, h1⟩

/-! ## C1: the original-display decision and its bound -/

/-- C1: the claim says the original pane shows the bitmap iff
`max(w, h) ≤ max_original_display_size`.  The code disagrees: at original
dimensions 300×200 with `resized_image_size = 100` and
`max_original_display_size = 500` it hides the original pane and shows the
placeholder even though `max(300, 200) = 300 ≤ 500`; line 276 compares
against `self.resized_image_size`, and the value loaded from the required
key `max_original_display_size` is never consulted (last conjunct: the
decision is constant in that argument). -/
theorem c1_original_display_ignores_max_display_size :
    (display_image_view 300 200 100 500).show_original = false ∧
    (display_image_view 300 200 100 500).placeholder = some (300, 200) ∧
    max 300 200 ≤ 500 ∧
    ∀ md : Nat, display_image_view 300 200 100 md = display_image_view 300 200 100 500 :=
  ⟨by decide, by decide, by decide, fun _ => rfl⟩

/-! ## C2: the resized-preview policy -/

/-- C2 fails on the code in two places.  At the bound itself no upscaling
happens: 50×100 at bound 100 stays 50×100, not the (100, 200) the claim's
example asserts.  And in the downscale branch the shorter side is not
floored from the uniform factor: 150×100 at bound 100 gives 100×67, while
flooring both axes from the factor 100/150 would give (100, 66). -/
theorem c2_counterexample :
    previewSize 50 100 100 = (50, 100) ∧
    previewSize 50 100 100 ≠ (100, 200) ∧
    previewSize 150 100 100 = (100, 67) ∧
    previewSize 150 100 100 ≠ (150 * 100 / 150, 100 * 100 / 150) := by decide

/-- The x-axis thumbnail rounding stays within one of the floored exact
value and is at least 1. -/
theorem roundAspectX_bounds (bound w h : Nat) :
    bound * w / h ≤ roundAspectX bound w h ∧
    roundAspectX bound w h ≤ bound * w / h + 1 ∧ 1 ≤ roundAspectX bound w h := by
  unfold roundAspectX
  dsimp only
  generalize bound * w / h = f
  generalize bound * w % h = r
  split_ifs <;> omega

/-- The y-axis thumbnail rounding stays within one of the floored exact
value and is at least 1. -/
theorem roundAspectY_bounds (bound w h : Nat) :
    bound * h / w ≤ roundAspectY bound w h ∧
    roundAspectY bound w h ≤ bound * h / w + 1 ∧ 1 ≤ roundAspectY bound w h := by
  unfold roundAspectY
  dsimp only
  generalize bound * h / w = f
  generalize bound * h % w = r
  split_ifs <;> omega

/-- C2 (amended): with `m = max w h`, the preview is unchanged when
`m = bound` (so 50×100 at bound 100 stays 50×100); when `m < bound` both
axes are floored from the single factor `bound / m`; when `m > bound` the
longer side becomes exactly `bound` and the shorter side is the floor or the
ceiling (and at least 1) of the exact aspect-preserving value, whichever
Pillow's `thumbnail` judges closer in aspect — not necessarily the floor.
4000×2000 at bound 100 gives (100, 50). -/
theorem c2_preview_scaling (w h bound : Nat) (hw : 0 < w) (hh : 0 < h)
    (hb : 0 < bound) :
    (max w h = bound → previewSize w h bound = (w, h)) ∧
    (max w h < bound →
      previewSize w h bound = (w * bound / max w h, h * bound / max w h)) ∧
    (bound < max w h → w ≤ h →
      (previewSize w h bound).2 = bound ∧
      bound * w / h ≤ (previewSize w h bound).1 ∧
      (previewSize w h bound).1 ≤ bound * w / h + 1 ∧
      1 ≤ (previewSize w h bound).1) ∧
    (bound < max w h → h < w →
      (previewSize w h bound).1 = bound ∧
      bound * h / w ≤ (previewSize w h bound).2 ∧
      (previewSize w h bound).2 ≤ bound * h / w + 1 ∧
      1 ≤ (previewSize w h bound).2) ∧
    previewSize 4000 2000 100 = (100, 50) := by
  refine ⟨?_, ?_, ?_, ?_, by decide⟩
  · intro hm
    simp [previewSize, hm]
  · intro hm
    simp [previewSize, hm, Nat.lt_asymm hm]
  · intro hm hwh
    have hmax : max w h = h := Nat.max_eq_right hwh
    rw [hmax] at hm
    have hpre : previewSize w h bound = (roundAspectX bound w h, bound) := by
      simp only [previewSize, thumbnailSize, hmax]
      rw [if_neg (by omega), if_pos hm, if_neg (by omega), if_pos hwh]
    rw [hpre]
    exact ⟨rfl, (roundAspectX_bounds bound w h).1,
      (roundAspectX_bounds bound w h).2.1, (roundAspectX_bounds bound w h).2.2⟩
  · intro hm hhw
    have hmax : max w h = w := Nat.max_eq_left (le_of_lt hhw)
    rw [hmax] at hm
    have hpre : previewSize w h bound = (bound, roundAspectY bound w h) := by
      simp only [previewSize, thumbnailSize, hmax]
      rw [if_neg (by omega), if_pos hm, if_neg (by omega), if_neg (by omega)]
    rw [hpre]
    exact ⟨rfl, (roundAspectY_bounds bound w h).1,
      (roundAspectY_bounds bound w h).2.1, (roundAspectY_bounds bound w h).2.2⟩

/-- Witness for `c2_preview_scaling` at the spec example 4000×2000, bound 100. -/
theorem c2_preview_scaling_witness :
    (0 < 4000 ∧ 0 < 2000 ∧ 0 < 100) ∧
    ((max 4000 2000 = 100 → previewSize 4000 2000 100 = (4000, 2000)) ∧
     (max 4000 2000 < 100 →
       previewSize 4000 2000 100 =
         (4000 * 100 / max 4000 2000, 2000 * 100 / max 4000 2000)) ∧
     (100 < max 4000 2000 → 4000 ≤ 2000 →
       (previewSize 4000 2000 100).2 = 100 ∧
       100 * 4000 / 2000 ≤ (previewSize 4000 2000 100).1 ∧
       (previewSize 4000 2000 100).1 ≤ 100 * 4000 / 2000 + 1 ∧
       1 ≤ (previewSize 4000 2000 100).1) ∧
     (100 < max 4000 2000 → 2000 < 4000 →
       (previewSize 4000 2000 100).1 = 100 ∧
       100 * 2000 / 4000 ≤ (previewSize 4000 2000 100).2 ∧
       (previewSize 4000 2000 100).2 ≤ 100 * 2000 / 4000 + 1 ∧
       1 ≤ (previewSize 4000 2000 100).2) ∧
     previewSize 4000 2000 100 = (100, 50)) :=
  ⟨⟨by decide, by decide, by decide⟩,
    c2_preview_scaling 4000 2000 100 (by decide) (by decide) (by decide)⟩

/-! ## C3: save format, sortedness and round trip -/

/-- C3: for an Annotation Map (distinct filenames, class indices within the
class list), save completes, writes the header plus exactly one row per
entry (a permutation of the map at the `(filename, class_index)` level) with
filenames in ascending order, resolves each class name through the current
class list at write time, and `save(load(save(M)))` equals `save(M)`
field-for-field.  Idempotence of `save` holds definitionally: the embedded
`save_annotations` is a pure function of the class list and the map. -/
theorem c3_save_sorted_roundtrip (classes : List String)
    (M : List (String × Int)) (hkeys : (M.map Prod.fst).Nodup)
    (hvals : ∀ p ∈ M, 0 ≤ p.2 ∧ p.2 < (classes.length : Int)) :
    (save_annotations classes M).ok = true ∧
    (save_annotations classes M).header = headerRow ∧
    List.Perm ((save_annotations classes M).rows.map (fun r => (r.1, r.2.1))) M ∧
    ((save_annotations classes M).rows.map (fun r => r.1)).Pairwise
      (fun a b : String => a ≤ b) ∧
    (∀ r ∈ (save_annotations classes M).rows, pyGet classes r.2.1 = some r.2.2) ∧
    save_annotations classes
        (load_previous_annotations (some (save_annotations classes M).rows)) =
      save_annotations classes M := by
  have hrows := save_rows_of_valid classes M hvals
  have hkeys2 : (save_annotations classes M).rows.map (fun r => r.1) =
      (sortedItems M).map Prod.fst := by
    have := congrArg (List.map Prod.fst) hrows
    simpa [List.map_map, Function.comp] using this
  refine ⟨save_ok_of_valid classes M hvals, rfl, ?_, ?_, ?_, ?_⟩
  · rw [hrows]; exact sortedItems_perm M
  · rw [hkeys2]
    refine List.Pairwise.map Prod.fst ?_ (sortedItems_sorted M)
    intro a b hab
    rcases hab with h | ⟨e, _⟩
    · exact le_of_lt h
    · exact le_of_eq e
  · simpa only [save_annotations] using
      writeRows_names classes (sortedItems M)
  · have hnd : ((save_annotations classes M).rows.map (fun r => r.1)).Nodup := by
      rw [hkeys2]
      exact (((sortedItems_perm M).map Prod.fst).nodup_iff).2 hkeys
    rw [load_some_of_nodup _ hnd, hrows]
    simp only [save_annotations, sortedItems_idem]

/-- Witness for `c3_save_sorted_roundtrip` on a two-entry map and a
two-class list. -/
theorem c3_save_sorted_roundtrip_witness :
    (([(("b.png" : String), (1 : Int)), ("a.png", 0)].map Prod.fst).Nodup ∧
     (∀ p ∈ [(("b.png" : String), (1 : Int)), ("a.png", 0)],
        0 ≤ p.2 ∧ p.2 < ((["cloud", "ice"] : List String).length : Int))) ∧
    ((save_annotations ["cloud", "ice"] [("b.png", 1), ("a.png", 0)]).ok = true ∧
     (save_annotations ["cloud", "ice"] [("b.png", 1), ("a.png", 0)]).header = headerRow ∧
     List.Perm
       ((save_annotations ["cloud", "ice"] [("b.png", 1), ("a.png", 0)]).rows.map
         (fun r => (r.1, r.2.1)))
       [("b.png", 1), ("a.png", 0)] ∧
     ((save_annotations ["cloud", "ice"] [("b.png", 1), ("a.png", 0)]).rows.map
       (fun r => r.1)).Pairwise (fun a b : String => a ≤ b) ∧
     (∀ r ∈ (save_annotations ["cloud", "ice"] [("b.png", 1), ("a.png", 0)]).rows,
        pyGet ["cloud", "ice"] r.2.1 = some r.2.2) ∧
     save_annotations ["cloud", "ice"]
         (load_previous_annotations
           (some (save_annotations ["cloud", "ice"] [("b.png", 1), ("a.png", 0)]).rows)) =
       save_annotations ["cloud", "ice"] [("b.png", 1), ("a.png", 0)]) :=
  ⟨⟨by decide, by decide⟩,
    c3_save_sorted_roundtrip ["cloud", "ice"] [("b.png", 1), ("a.png", 0)]
      (by decide) (by decide)⟩

/-! ## C8: loading a missing store, duplicate filenames -/

/-- C8: loading a missing store file yields the empty map without an error,
and whatever the rows are, the loaded dict keeps at most one entry per
filename (its keys are distinct), whose class index comes from the last row
carrying that filename. -/
theorem c8_load_missing_last_wins :
    load_previous_annotations none = [] ∧
    (∀ rows : List StoreRow,
      ((load_previous_annotations (some rows)).map Prod.fst).Nodup) ∧
    (∀ (rows : List StoreRow) (f : String),
      List.lookup f (load_previous_annotations (some rows)) =
        ((rows.filter (fun r => r.1 == f)).getLast?).map (fun r => r.2.1)) := by
  refine ⟨rfl, ?_, ?_⟩
  · intro rows
    exact foldl_dictInsert_keys_nodup rows [] (by simp)
  · intro rows f
    show List.lookup f (rows.foldl (fun acc r => dictInsert acc r.1 r.2.1) []) = _
    rw [lookup_foldl_dictInsert]
    cases hlast : (rows.filter (fun r => r.1 == f)).getLast? with
    | none => simp [List.lookup]
    | some r => simp

/-! ## C10: save with out-of-range class indices -/

/-- C10 fails on the code as stated: a class index of -1 is outside
`[0, classCount)`, yet with two classes the save completes without an
`IndexError` — Python's negative subscription wraps around and resolves the
name of the LAST class. -/
theorem c10_counterexample :
    (save_annotations ["a", "b"] [("x", -1)]).ok = true ∧
    (save_annotations ["a", "b"] [("x", -1)]).rows = [("x", -1, "b")] ∧
    ¬ (0 ≤ (-1 : Int)) := by decide

/-- C10 (amended): save raises `IndexError` exactly when some class index of
the map falls outside Python's subscription range `[-classCount, classCount)`
(indices in `[-classCount, -1]` do not raise: they wrap around); when it
raises, the header and the rows strictly before the offending entry in
sorted order were already written to the truncated file; and under the
precondition that every class index lies in `[0, classCount)` the lookup is
safe and save completes. -/
theorem c10_save_partial_write (classes : List String) (M : List (String × Int)) :
    ((save_annotations classes M).ok = false ↔
      ∃ p ∈ M, p.2 < -(classes.length : Int) ∨ (classes.length : Int) ≤ p.2) ∧
    (save_annotations classes M).header = headerRow ∧
    ((save_annotations classes M).rows.map (fun r => (r.1, r.2.1)) =
      (sortedItems M).takeWhile (fun p => (pyGet classes p.2).isSome)) ∧
    ((∀ p ∈ M, 0 ≤ p.2 ∧ p.2 < (classes.length : Int)) →
      (save_annotations classes M).ok = true) := by
  refine ⟨?_, rfl, ?_, save_ok_of_valid classes M⟩
  · simp only [save_annotations]
    rw [writeRows_ok]
    constructor
    · intro hfalse
      obtain ⟨p, hp, hnp⟩ := List.all_eq_false.1 hfalse
      refine ⟨p, (sortedItems_perm M).subset hp, ?_⟩
      have hniff : ¬ ((pyGet classes p.2).isSome = true) := by simpa using hnp
      rw [pyGet_isSome_iff] at hniff
      omega
    · rintro ⟨p, hp, hrange⟩
      apply List.all_eq_false.2
      refine ⟨p, ((sortedItems_perm M).mem_iff).2 hp, ?_⟩
      simp only [pyGet_isSome_iff]
      omega
  · simp only [save_annotations]
    exact writeRows_rows classes (sortedItems M)

/-- Witness for `c10_save_partial_write`: the in-range precondition is
satisfiable and then discharges to a completed save. -/
theorem c10_save_partial_write_witness :
    ((∀ p ∈ [(("f" : String), (0 : Int))],
        0 ≤ p.2 ∧ p.2 < ((["a"] : List String).length : Int)) →
      (save_annotations ["a"] [("f", 0)]).ok = true) ∧
    (save_annotations ["a"] [("f", 0)]).ok = true :=
  ⟨(c10_save_partial_write ["a"] [("f", 0)]).2.2.2,
    (c10_save_partial_write ["a"] [("f", 0)]).2.2.2 (by decide)⟩

/-! ## C5: configuration validation -/

/-- C5 fails on the code: a payload whose `resized_image_size` is a string
and whose `max_original_display_size` is the non-positive integer -5 loads
successfully — the source checks only that these keys are present, never
their types or positivity (and it does not check that the class entries are
strings either). -/
theorem c5_counterexample :
    load_config
      [(("classes"), JVal.jarr [JVal.jstr ("plate")]),
       (("annotations_file"), JVal.jnull),
       (("resized_image_size"), JVal.jstr ("many")),
       (("max_original_display_size"), JVal.jnum (-5))] =
      Except.ok
        { classes := [JVal.jstr ("plate")], annotations_file := JVal.jnull,
          resized_image_size := JVal.jstr ("many"),
          max_display_size := JVal.jnum (-5) } := rfl

/-- C5 (amended): absence of any of the four required keys is a fatal error
whose message names the field; a `classes` value that is not a list, an
empty class list, and more than nine classes are fatal errors; but the
values of `annotations_file`, `resized_image_size` and
`max_original_display_size` are stored without any type or positivity
check, and class entries are not checked to be strings — any payload with
the four keys present and `classes` a list of length 1-9 produces a
configuration. -/
theorem c5_config_validation (cfg : List (String × JVal)) :
    (List.lookup ("classes") cfg = none →
      load_config cfg =
        Except.error (ConfigError.keyError
          ("The classes field is required in the configuration file."))) ∧
    (∀ v, List.lookup ("classes") cfg = some v → (∀ xs, v ≠ JVal.jarr xs) →
      load_config cfg =
        Except.error (ConfigError.typeError
          ("The classes field must be a list of strings."))) ∧
    (∀ xs, List.lookup ("classes") cfg = some (JVal.jarr xs) → xs.length = 0 →
      load_config cfg =
        Except.error (ConfigError.valueError
          ("The configuration file must contain at least one class."))) ∧
    (∀ xs, List.lookup ("classes") cfg = some (JVal.jarr xs) → 9 < xs.length →
      load_config cfg =
        Except.error (ConfigError.valueError
          ("Number of classes must not exceed 9 (currently "
            ++ toString xs.length ++ ")."))) ∧
    (∀ xs, List.lookup ("classes") cfg = some (JVal.jarr xs) →
      0 < xs.length → xs.length ≤ 9 →
      List.lookup ("annotations_file") cfg = none →
      load_config cfg =
        Except.error (ConfigError.keyError
          ("The annotations_file field is required in the configuration file."))) ∧
    (∀ xs af, List.lookup ("classes") cfg = some (JVal.jarr xs) →
      0 < xs.length → xs.length ≤ 9 →
      List.lookup ("annotations_file") cfg = some af →
      List.lookup ("resized_image_size") cfg = none →
      load_config cfg =
        Except.error (ConfigError.keyError
          ("The resized_image_size field is required in the configuration file."))) ∧
    (∀ xs af rs, List.lookup ("classes") cfg = some (JVal.jarr xs) →
      0 < xs.length → xs.length ≤ 9 →
      List.lookup ("annotations_file") cfg = some af →
      List.lookup ("resized_image_size") cfg = some rs →
      List.lookup ("max_original_display_size") cfg = none →
      load_config cfg =
        Except.error (ConfigError.keyError
          ("The max_original_display_size field is required in the configuration file."))) ∧
    (∀ xs af rs ms, List.lookup ("classes") cfg = some (JVal.jarr xs) →
      0 < xs.length → xs.length ≤ 9 →
      List.lookup ("annotations_file") cfg = some af →
      List.lookup ("resized_image_size") cfg = some rs →
      List.lookup ("max_original_display_size") cfg = some ms →
      load_config cfg =
        Except.ok { classes := xs, annotations_file := af,
                    resized_image_size := rs, max_display_size := ms }) := by
  refine ⟨?_, ?_, ?_, ?_, ?_, ?_, ?_, ?_⟩
  · intro h
    simp [load_config, h]
  · intro v hv hne
    cases v with
    | jarr xs => exact absurd rfl (hne xs)
    | jnull => simp [load_config, hv]
    | jbool b => simp [load_config, hv]
    | jnum n => simp [load_config, hv]
    | jstr s => simp [load_config, hv]
    | jobj fields => simp [load_config, hv]
  · intro xs hcl h0
    simp [load_config, hcl, h0]
  · intro xs hcl h9
    simp only [load_config, hcl]
    rw [if_neg (by omega), if_pos h9]
  · intro xs hcl h0 h9 haf
    simp only [load_config, hcl, haf]
    rw [if_neg (by omega), if_neg (by omega)]
  · intro xs af hcl h0 h9 haf hrs
    simp only [load_config, hcl, haf, hrs]
    rw [if_neg (by omega), if_neg (by omega)]
  · intro xs af rs hcl h0 h9 haf hrs hms
    simp only [load_config, hcl, haf, hrs, hms]
    rw [if_neg (by omega), if_neg (by omega)]
  · intro xs af rs ms hcl h0 h9 haf hrs hms
    simp only [load_config, hcl, haf, hrs, hms]
    rw [if_neg (by omega), if_neg (by omega)]

/-- Witness for `c5_config_validation`: a payload with the first three keys
but no `max_original_display_size` is rejected with the message naming that
field. -/
theorem c5_config_validation_witness :
    load_config
      [(("classes"), JVal.jarr [JVal.jstr ("plate")]),
       (("annotations_file"), JVal.jnull),
       (("resized_image_size"), JVal.jnum 200)] =
      Except.error (ConfigError.keyError
        ("The max_original_display_size field is required in the configuration file.")) :=
  (c5_config_validation
      [(("classes"), JVal.jarr [JVal.jstr ("plate")]),
       (("annotations_file"), JVal.jnull),
       (("resized_image_size"), JVal.jnum 200)]).2.2.2.2.2.2.1
    [JVal.jstr ("plate")] JVal.jnull (JVal.jnum 200)
    rfl (by decide) (by decide) rfl rfl rfl

/-! ## Session state machine lemmas -/

/-- Redisplaying touches only the radio variable. -/
theorem display_image_frame (s : AppState) :
    (display_image s).images = s.images ∧
    (display_image s).current_index = s.current_index ∧
    (display_image s).annotations = s.annotations ∧
    (display_image s).classes = s.classes := by
  unfold display_image
  split <;> exact ⟨rfl, rfl, rfl, rfl⟩

/-- The selection handler never moves the cursor, the Image Set, the class
list or the radio variable. -/
theorem on_class_selected_frame (s : AppState) :
    (on_class_selected s).1.current_index = s.current_index ∧
    (on_class_selected s).1.images = s.images ∧
    (on_class_selected s).1.classes = s.classes ∧
    (on_class_selected s).1.selected_class = s.selected_class := by
  unfold on_class_selected
  split <;> exact ⟨rfl, rfl, rfl, rfl⟩

/-- A number-key selection never moves the cursor or the Image Set. -/
theorem select_class_frame (s : AppState) (i : Int) :
    (select_class_by_key s i).1.current_index = s.current_index ∧
    (select_class_by_key s i).1.images = s.images := by
  unfold select_class_by_key
  exact ⟨(on_class_selected_frame _).1, (on_class_selected_frame _).2.1⟩

/-- A folder selection that produces a non-empty Image Set puts the cursor
at 0. -/
theorem load_images_cursor (s : AppState) (listing : List String)
    (h : (load_images s listing).1.images ≠ []) :
    (load_images s listing).1.current_index = 0 := by
  by_cases hc : (listing.filter isImageFile).insertionSort (fun a b : String => a ≤ b) ≠ []
  · unfold load_images
    dsimp only
    rw [if_pos hc, (display_image_frame _).2.1]
  · exfalso
    apply hc
    unfold load_images at h
    dsimp only at h
    rw [if_neg hc] at h
    exact h

/-- A save completes with `ok = false` as soon as one map entry's class
index is at or beyond the class count. -/
theorem save_ok_false_of_mem (classes : List String) (M : List (String × Int))
    (p : String × Int) (hp : p ∈ M) (hbad : (classes.length : Int) ≤ p.2) :
    (save_annotations classes M).ok = false := by
  simp only [save_annotations]
  rw [writeRows_ok]
  apply List.all_eq_false.2
  refine ⟨p, ((sortedItems_perm M).mem_iff).2 hp, ?_⟩
  simp only [pyGet_isSome_iff]
  omega

/-- The assigned pair is in the dict after assignment. -/
theorem mem_dictInsert_self (m : List (String × Int)) (k : String) (v : Int) :
    (k, v) ∈ dictInsert m k v := by
  induction m with
  | nil => simp [dictInsert]
  | cons p rest ih =>
    obtain ⟨k', v'⟩ := p
    by_cases h : k' = k
    · simp [dictInsert, h]
    · simp only [dictInsert, if_neg h]
      exact List.mem_cons_of_mem _ ih

/-! ## C4: failure semantics of invalid actions -/

/-- C4 fails on the code: with no images loaded both arrow handlers return
with the state unchanged and no exception, the selection handler is a no-op,
and a key press with a negative class index merely stores the radio value —
nothing fails fast with an assertion. -/
theorem c4_counterexample :
    previous_image (initState ["a"] none) = initState ["a"] none ∧
    next_image (initState ["a"] none) = initState ["a"] none ∧
    on_class_selected (initState ["a"] none) = (initState ["a"] none, true) ∧
    select_class_by_key (initState ["a"] none) (-3) =
      ({ initState ["a"] none with selected_class := -3 }, true) := by decide

/-- C4 (amended): navigation with an empty Image Set and a class selection
with a negative index are silently absorbed as no-ops (no exception, the
Annotation Map and cursor untouched); a class index at or above the class
count is not rejected at entry either — it is recorded in the Annotation Map
and only the save it triggers raises `IndexError`. -/
theorem c4_failure_semantics (s : AppState) (class_index : Int) :
    (s.images = [] →
      previous_image s = s ∧ next_image s = s ∧
      (select_class_by_key s class_index).1.annotations = s.annotations ∧
      (select_class_by_key s class_index).1.current_index = s.current_index ∧
      (select_class_by_key s class_index).2 = true) ∧
    (class_index < 0 →
      (select_class_by_key s class_index).1.annotations = s.annotations ∧
      (select_class_by_key s class_index).1.current_index = s.current_index ∧
      (select_class_by_key s class_index).2 = true) ∧
    (s.images ≠ [] → (s.classes.length : Int) ≤ class_index →
      (select_class_by_key s class_index).1.annotations =
        dictInsert s.annotations (currentImage s) class_index ∧
      (select_class_by_key s class_index).2 = false) := by
  refine ⟨?_, ?_, ?_⟩
  · intro hempty
    refine ⟨?_, ?_, ?_⟩
    · unfold previous_image
      rw [if_neg]
      rintro ⟨hne, _⟩
      exact hne hempty
    · unfold next_image
      rw [if_neg]
      rintro ⟨hne, _⟩
      exact hne hempty
    · unfold select_class_by_key on_class_selected
      rw [if_neg]
      · exact ⟨rfl, rfl, rfl⟩
      · rintro ⟨hne, _⟩
        exact hne hempty
  · intro hneg
    unfold select_class_by_key on_class_selected
    rw [if_neg]
    · exact ⟨rfl, rfl, rfl⟩
    · rintro ⟨_, hge⟩
      have h0 : (0 : Int) ≤ class_index := hge
      omega
  · intro hne hge
    unfold select_class_by_key on_class_selected
    rw [if_pos ⟨hne, show (0 : Int) ≤ class_index by omega⟩]
    refine ⟨rfl, ?_⟩
    exact save_ok_false_of_mem s.classes _ (currentImage s, class_index)
      (mem_dictInsert_self _ _ _) hge

/-- Witness for `c4_failure_semantics`: the empty-set branch at the initial
state and the out-of-range branch on a one-image, one-class state. -/
theorem c4_failure_semantics_witness :
    (previous_image (initState ["a"] none) = initState ["a"] none ∧
     next_image (initState ["a"] none) = initState ["a"] none ∧
     (select_class_by_key (initState ["a"] none) (-3)).1.annotations =
       (initState ["a"] none).annotations ∧
     (select_class_by_key (initState ["a"] none) (-3)).1.current_index =
       (initState ["a"] none).current_index ∧
     (select_class_by_key (initState ["a"] none) (-3)).2 = true) ∧
    ((select_class_by_key ⟨["a"], ["i.png"], 0, [], -1⟩ 5).1.annotations =
       dictInsert (AppState.mk ["a"] ["i.png"] 0 [] (-1)).annotations
         (currentImage ⟨["a"], ["i.png"], 0, [], -1⟩) 5 ∧
     (select_class_by_key ⟨["a"], ["i.png"], 0, [], -1⟩ 5).2 = false) :=
  ⟨(c4_failure_semantics (initState ["a"] none) (-3)).1 rfl,
   (c4_failure_semantics ⟨["a"], ["i.png"], 0, [], -1⟩ 5).2.2 (by decide) (by decide)⟩

/-! ## C6: the cursor invariant -/

/-- C6: in every reachable state the cursor is within bounds whenever the
Image Set is non-empty; the selection operations never move the cursor (so
only navigation and folder selection do); and a folder selection that yields
a non-empty Image Set resets the cursor to 0. -/
theorem c6_cursor_invariant :
    (∀ s, Reachable s → s.images ≠ [] → s.current_index < s.images.length) ∧
    (∀ s, (on_class_selected s).1.current_index = s.current_index) ∧
    (∀ s i, (select_class_by_key s i).1.current_index = s.current_index) ∧
    (∀ s listing, (load_images s listing).1.images ≠ [] →
      (load_images s listing).1.current_index = 0) := by
  refine ⟨?_, fun s => (on_class_selected_frame s).1,
    fun s i => (select_class_frame s i).1, load_images_cursor⟩
  intro s hreach
  induction hreach with
  | init classes file => intro h; exact absurd rfl h
  | @step s' t hs hstep ih =>
    cases hstep with
    | openFolder listing =>
      intro h
      rw [load_images_cursor s' listing h]
      exact List.length_pos.2 h
    | prev =>
      unfold previous_image
      split
      · next hc =>
        rw [(display_image_frame _).1, (display_image_frame _).2.1]
        dsimp only
        intro _
        have := ih hc.1
        omega
      · exact ih
    | next =>
      unfold next_image
      split
      · next hc =>
        rw [(display_image_frame _).1, (display_image_frame _).2.1]
        dsimp only
        intro _
        have hlen : 0 < s'.images.length := List.length_pos.2 hc.1
        have := hc.2
        omega
      · exact ih
    | key i =>
      intro h
      rw [(select_class_frame s' i).2] at h
      rw [(select_class_frame s' i).1, (select_class_frame s' i).2]
      exact ih h
    | radio =>
      intro h
      rw [(on_class_selected_frame s').2.1] at h
      rw [(on_class_selected_frame s').1, (on_class_selected_frame s').2.1]
      exact ih h
    | save => exact ih

/-- Witness for `c6_cursor_invariant`: after opening a folder with one image
from the initial state, the cursor is strictly inside the Image Set. -/
theorem c6_cursor_invariant_witness :
    ((load_images (initState ["c"] none) ["a.png"]).1.images ≠ [] →
      (load_images (initState ["c"] none) ["a.png"]).1.current_index <
        (load_images (initState ["c"] none) ["a.png"]).1.images.length) ∧
    (load_images (initState ["c"] none) ["a.png"]).1.current_index <
      (load_images (initState ["c"] none) ["a.png"]).1.images.length :=
  ⟨c6_cursor_invariant.1 _
      (Reachable.step (Reachable.init ["c"] none) (Step.openFolder _ ["a.png"])),
   c6_cursor_invariant.1 _
      (Reachable.step (Reachable.init ["c"] none) (Step.openFolder _ ["a.png"]))
      (by decide)⟩

/-! ## C7: navigation moves, clamps, and leaves the map alone -/

/-- C7: on a non-empty Image Set with the cursor in range, `previous` and
`next` move the cursor by one, clamped to `[0, len-1]` (at the boundaries
they leave the state entirely unchanged, raising nothing), neither touches
the Annotation Map or the Image Set, and after an actual move the radio
selection is exactly the map's recorded value for the newly shown image, or
the sentinel -1 when unrecorded. -/
theorem c7_navigation (s : AppState) (hne : s.images ≠ [])
    (hidx : s.current_index < s.images.length) :
    (previous_image s).current_index = s.current_index - 1 ∧
    (next_image s).current_index = min (s.current_index + 1) (s.images.length - 1) ∧
    (previous_image s).images = s.images ∧
    (next_image s).images = s.images ∧
    (previous_image s).annotations = s.annotations ∧
    (next_image s).annotations = s.annotations ∧
    (s.current_index = 0 → previous_image s = s) ∧
    (s.current_index = s.images.length - 1 → next_image s = s) ∧
    (0 < s.current_index →
      (previous_image s).selected_class =
        ((List.lookup (s.images.getD (s.current_index - 1) "") s.annotations).getD
          (-1))) ∧
    (s.current_index < s.images.length - 1 →
      (next_image s).selected_class =
        ((List.lookup (s.images.getD (s.current_index + 1) "") s.annotations).getD
          (-1))) := by
  have hdisp : ∀ j : Nat,
      display_image { s with current_index := j } =
        { s with
            current_index := j
            selected_class :=
              ((List.lookup (s.images.getD j "") s.annotations).getD (-1)) } := by
    intro j
    unfold display_image
    rw [if_neg]
    · rfl
    · exact hne
  have hprev_pos : 0 < s.current_index →
      previous_image s =
        display_image { s with current_index := s.current_index - 1 } := by
    intro h0
    unfold previous_image
    rw [if_pos ⟨hne, h0⟩]
  have hprev_zero : s.current_index = 0 → previous_image s = s := by
    intro h0
    unfold previous_image
    rw [if_neg]
    rintro ⟨_, hlt⟩
    omega
  have hnext_lt : s.current_index < s.images.length - 1 →
      next_image s =
        display_image { s with current_index := s.current_index + 1 } := by
    intro hlt
    unfold next_image
    rw [if_pos ⟨hne, hlt⟩]
  have hnext_end : ¬ s.current_index < s.images.length - 1 → next_image s = s := by
    intro hlt
    unfold next_image
    rw [if_neg]
    rintro ⟨_, hc⟩
    exact hlt hc
  refine ⟨?_, ?_, ?_, ?_, ?_, ?_, hprev_zero, ?_, ?_, ?_⟩
  · by_cases h0 : 0 < s.current_index
    · rw [hprev_pos h0, hdisp]
    · rw [hprev_zero (by omega)]
      omega
  · by_cases hlt : s.current_index < s.images.length - 1
    · rw [hnext_lt hlt, hdisp]
      dsimp only
      omega
    · rw [hnext_end hlt]
      omega
  · by_cases h0 : 0 < s.current_index
    · rw [hprev_pos h0, hdisp]
    · rw [hprev_zero (by omega)]
  · by_cases hlt : s.current_index < s.images.length - 1
    · rw [hnext_lt hlt, hdisp]
    · rw [hnext_end hlt]
  · by_cases h0 : 0 < s.current_index
    · rw [hprev_pos h0, hdisp]
    · rw [hprev_zero (by omega)]
  · by_cases hlt : s.current_index < s.images.length - 1
    · rw [hnext_lt hlt, hdisp]
    · rw [hnext_end hlt]
  · intro hend
    exact hnext_end (by omega)
  · intro h0
    rw [hprev_pos h0, hdisp]
  · intro hlt
    rw [hnext_lt hlt, hdisp]

/-- Witness for `c7_navigation` on the spec's 3-image set with the cursor at
0: `previous` leaves the cursor at 0 and the whole state unchanged. -/
theorem c7_navigation_witness :
    ((AppState.mk ["c"] ["a.png", "b.png", "c.png"] 0 [] (-1)).images ≠ [] ∧
     (AppState.mk ["c"] ["a.png", "b.png", "c.png"] 0 [] (-1)).current_index <
       (AppState.mk ["c"] ["a.png", "b.png", "c.png"] 0 [] (-1)).images.length) ∧
    (previous_image (AppState.mk ["c"] ["a.png", "b.png", "c.png"] 0 [] (-1))).current_index =
      (AppState.mk ["c"] ["a.png", "b.png", "c.png"] 0 [] (-1)).current_index - 1 ∧
    ((AppState.mk ["c"] ["a.png", "b.png", "c.png"] 0 [] (-1)).current_index = 0 →
      previous_image (AppState.mk ["c"] ["a.png", "b.png", "c.png"] 0 [] (-1)) =
        AppState.mk ["c"] ["a.png", "b.png", "c.png"] 0 [] (-1)) :=
  ⟨⟨by decide, by decide⟩,
    (c7_navigation (AppState.mk ["c"] ["a.png", "b.png", "c.png"] 0 [] (-1))
      (by decide) (by decide)).1,
    (c7_navigation (AppState.mk ["c"] ["a.png", "b.png", "c.png"] 0 [] (-1))
      (by decide) (by decide)).2.2.2.2.2.2.1⟩

/-! ## C9: opening a folder with no matching files -/

/-- C9: a folder selection never mutates the Annotation Map, and when the
listing holds no file with a recognized image extension, the Image Set
becomes empty (the `Empty` session state) and the handler returns normally
with the warning signal instead of raising. -/
theorem c9_open_empty_folder (s : AppState) (listing : List String) :
    (load_images s listing).1.annotations = s.annotations ∧
    ((listing.filter isImageFile) = [] →
      (load_images s listing).1.images = [] ∧ (load_images s listing).2 = true) := by
  constructor
  · unfold load_images
    dsimp only
    split
    · rw [(display_image_frame _).2.2.1]
    · rfl
  · intro hempty
    unfold load_images
    dsimp only
    rw [hempty]
    simp [List.insertionSort]

/-- Witness for `c9_open_empty_folder`: a listing with a text file and no
image yields the empty Image Set, a warning, and an untouched map. -/
theorem c9_open_empty_folder_witness :
    (([("notes.txt" : String)].filter isImageFile) = []) ∧
    (load_images (initState ["c"] (some [("f.png", 0, "c")])) ["notes.txt"]).1.annotations =
      (initState ["c"] (some [("f.png", 0, "c")])).annotations ∧
    (load_images (initState ["c"] (some [("f.png", 0, "c")])) ["notes.txt"]).1.images = [] ∧
    (load_images (initState ["c"] (some [("f.png", 0, "c")])) ["notes.txt"]).2 = true :=
  ⟨by decide,
   (c9_open_empty_folder (initState ["c"] (some [("f.png", 0, "c")])) ["notes.txt"]).1,
   ((c9_open_empty_folder (initState ["c"] (some [("f.png", 0, "c")])) ["notes.txt"]).2
     (by decide)).1,
   ((c9_open_empty_folder (initState ["c"] (some [("f.png", 0, "c")])) ["notes.txt"]).2
     (by decide)).2⟩

end TagTheHabit
